import Mathlib

/-!
Verification of the Demo device-inventory CRUD service.

The repository ships the Device schema, the DeviceRepository contract and
the Gin HTTP handlers of setupTestRouterWithMock (src/unnamed/part_000),
together with two test files. The concrete repository implementation
(create, find, list, update, delete, CSV bulk import) is exercised by the
tests but not present under src/, so those operations are modelled from the
specification; the HTTP handlers are embedded directly from the source.
-/

/-- Device record, from src/unnamed/part_000 lines 18-30 together with the
ID field visible in device_test.go (line 51): ten data fields plus the
storage-assigned integer ID. The price is a decimal, modelled as a
rational number. -/
structure Device where
  id            : Nat
  device_name   : String
  device_type   : String
  brand         : String
  model         : String
  os            : String
  os_version    : String
  purchase_date : String
  warranty_end  : String
  status        : String
  price         : ℚ
deriving Repr, DecidableEq

/-- Error taxonomy of the specification (section 7). -/
inductive RepoError where
  | validationError
  | notFoundError
  | storageError
deriving Repr, DecidableEq

/-- An untyped JSON field-map value, restricted to the two shapes the
update engine distinguishes: strings and numbers (the explicit sum type
the specification, section 9, prescribes for the dynamic values). -/
inductive FieldValue where
  | str (s : String)
  | num (q : ℚ)
deriving Repr, DecidableEq

/-- Modelled from the spec: the in-memory backing store of the repository
(section 9 replaces the reflection-based mock with an explicit in-memory
fake). IDs are assigned by an auto-incrementing counter. -/
structure Store where
  nextId  : Nat
  devices : List Device
deriving Repr, DecidableEq

/-- The JSON names of the nine string-valued Device fields. -/
def knownStringFields : List String :=
  ["device_name", "device_type", "brand", "model", "os",
   "os_version", "purchase_date", "warranty_end", "status"]

/-- All recognized field-map keys: the string fields plus price. -/
def knownFields : List String := knownStringFields ++ ["price"]

/-- The mutable Device fields, enumerated. -/
inductive FieldName where
  | device_name | device_type | brand | model | os | os_version
  | purchase_date | warranty_end | status | price
deriving Repr, DecidableEq

/-- The JSON key naming each Device field in a field-map. -/
def fieldKey : FieldName → String
  | .device_name => "device_name"
  | .device_type => "device_type"
  | .brand => "brand"
  | .model => "model"
  | .os => "os"
  | .os_version => "os_version"
  | .purchase_date => "purchase_date"
  | .warranty_end => "warranty_end"
  | .status => "status"
  | .price => "price"

/-- Reads a Device field as a FieldValue. -/
def readField (d : Device) : FieldName → FieldValue
  | .device_name => .str d.device_name
  | .device_type => .str d.device_type
  | .brand => .str d.brand
  | .model => .str d.model
  | .os => .str d.os
  | .os_version => .str d.os_version
  | .purchase_date => .str d.purchase_date
  | .warranty_end => .str d.warranty_end
  | .status => .str d.status
  | .price => .num d.price

/-- A key/value pair the update engine accepts: a known key whose value has
the correct semantic type (string fields take strings; price takes a
non-negative decimal, the semantic type of price in the data model). -/
def validAssignment : String × FieldValue → Prop
  | (k, .str _) => k ∈ knownStringFields
  | (k, .num q) => k = "price" ∧ 0 ≤ q

instance (kv : String × FieldValue) : Decidable (validAssignment kv) := by
  rcases kv with ⟨k, v⟩
  cases v <;> simp [validAssignment] <;> infer_instance

/-- Modelled from the spec: looking up the Device field named by a
field-map key (section 4.2); an unknown name yields none. -/
def keyToField (k : String) : Option FieldName :=
  if k = "device_name" then some .device_name
  else if k = "device_type" then some .device_type
  else if k = "brand" then some .brand
  else if k = "model" then some .model
  else if k = "os" then some .os
  else if k = "os_version" then some .os_version
  else if k = "purchase_date" then some .purchase_date
  else if k = "warranty_end" then some .warranty_end
  else if k = "status" then some .status
  else if k = "price" then some .price
  else none

/-- Modelled from the spec: coercing one field-map value into one Device
field (section 4.2): string fields accept only strings; the numeric price
field accepts a numeric value, kept as a decimal, and must stay within the
non-negative price invariant; a type mismatch is a validationError. -/
def setField (d : Device) (fn : FieldName) (v : FieldValue) : Except RepoError Device :=
  match fn, v with
  | .device_name, .str s => .ok { d with device_name := s }
  | .device_type, .str s => .ok { d with device_type := s }
  | .brand, .str s => .ok { d with brand := s }
  | .model, .str s => .ok { d with model := s }
  | .os, .str s => .ok { d with os := s }
  | .os_version, .str s => .ok { d with os_version := s }
  | .purchase_date, .str s => .ok { d with purchase_date := s }
  | .warranty_end, .str s => .ok { d with warranty_end := s }
  | .status, .str s => .ok { d with status := s }
  | .price, .num q =>
    if 0 ≤ q then .ok { d with price := q } else .error .validationError
  | _, _ => .error .validationError

/-- Modelled from the spec: one step of the Partial Update Engine
(section 4.2; the UpdateDevice implementation is not under src/). Looks up
the Device field named by the key; an unknown name fails the update with
validationError, otherwise the value is coerced into the field. -/
def applyField (d : Device) (kv : String × FieldValue) : Except RepoError Device :=
  match keyToField kv.1 with
  | none => .error .validationError
  | some fn => setField d fn kv.2

/-- Modelled from the spec: the Partial Update Engine folds every pair of
the field-map over the record; the first invalid pair fails the whole
update, so nothing is persisted (section 4.2, no partial application). -/
def applyUpdates (d : Device) : List (String × FieldValue) → Except RepoError Device
  | [] => .ok d
  | kv :: rest =>
    match applyField d kv with
    | .error e => .error e
    | .ok d1 => applyUpdates d1 rest

/-- Modelled from the spec: Repository.Create (section 4.1; the concrete
implementation is not under src/). Validates the price invariant, assigns
the next auto-increment ID and appends the record. -/
def createDevice (d : Device) (st : Store) : Except RepoError (Nat × Store) :=
  if 0 ≤ d.price then
    .ok (st.nextId,
         { nextId := st.nextId + 1,
           devices := st.devices ++ [{ d with id := st.nextId }] })
  else .error .validationError

/-- Modelled from the spec: Repository.GetByID (section 4.1); fails with
notFoundError when no record has the ID. -/
def getDeviceByID (id : Nat) (st : Store) : Except RepoError Device :=
  match st.devices.find? (fun d => d.id == id) with
  | some d => .ok d
  | none => .error .notFoundError

/-- Modelled from the spec: Repository.List with limit and offset
(section 4.1); an empty sequence is not an error. -/
def listDevices (limit offset : Nat) (st : Store) : Except RepoError (List Device) :=
  .ok ((st.devices.drop offset).take limit)

/-- Modelled from the spec: Repository.Update (section 4.1) delegating to
the Partial Update Engine; notFoundError when the ID is absent, and the
whole update is applied atomically only when every pair is valid. -/
def updateDevice (id : Nat) (updates : List (String × FieldValue)) (st : Store) :
    Except RepoError Store :=
  match st.devices.find? (fun d => d.id == id) with
  | none => .error .notFoundError
  | some d =>
    match applyUpdates d updates with
    | .error e => .error e
    | .ok d1 =>
      .ok { st with devices := st.devices.map (fun e => if e.id == id then d1 else e) }

/-- Modelled from the spec: Repository.Delete (section 4.1); a hard delete
that removes the record, notFoundError when absent. -/
def deleteDevice (id : Nat) (st : Store) : Except RepoError Store :=
  if st.devices.any (fun d => d.id == id) then
    .ok { st with devices := st.devices.filter (fun d => d.id != id) }
  else .error .notFoundError

/-- Row-level failure reasons of the bulk import pipeline (section 4.3):
wrong field count, unparsable price, or a failure from Repository.Create. -/
inductive RowError where
  | wrongFieldCount
  | badPrice
  | createFailed (e : RepoError)
deriving Repr, DecidableEq

/-- Splits a character list on a separator; n separators yield n+1 groups. -/
def splitOnChar (sep : Char) : List Char → List (List Char)
  | [] => [[]]
  | c :: rest =>
    let r := splitOnChar sep rest
    if c = sep then [] :: r
    else
      match r with
      | [] => [[c]]
      | g :: gs => (c :: g) :: gs

/-- Splits a string on a separator character into its delimited fields. -/
def splitFields (line : String) (sep : Char) : List String :=
  (splitOnChar sep line.toList).map (fun cs => String.mk cs)

/-- Numeric value of a decimal digit character. -/
def digitVal (c : Char) : Option Nat :=
  if c.isDigit then some (c.toNat - 48) else none

/-- Reads a nonempty string of decimal digits as a natural number. -/
def parseNatDigits (cs : List Char) : Option Nat :=
  cs.foldlM (fun acc c => (digitVal c).map (fun d => acc * 10 + d)) 0

/-- Modelled from the spec: parsing the price field of a CSV row as a
decimal (section 4.3), for example the text 500 as the number 500.0.
Accepts digits with an optional fractional part after a dot. -/
def parsePrice (s : String) : Option ℚ :=
  match splitFields s '.' with
  | [w] =>
    if w.length > 0 then (parseNatDigits w.toList).map (fun n => (n : ℚ))
    else none
  | [w, f] =>
    if w.length > 0 && f.length > 0 then
      match parseNatDigits w.toList, parseNatDigits f.toList with
      | some n, some m => some ((n : ℚ) + (m : ℚ) / ((10 : ℚ) ^ f.length))
      | _, _ => none
    else none
  | _ => none

/-- Modelled from the spec: parsing one CSV row (section 4.3). The line is
split on commas; exactly ten fields are required, in the fixed order
device_name, device_type, brand, model, os, os_version, purchase_date,
warranty_end, status, price, with the price parsed as a decimal. -/
def parseRow (line : String) : Except RowError Device :=
  if h : (splitFields line ',').length = 10 then
    match parsePrice ((splitFields line ',').get ⟨9, by omega⟩) with
    | none => .error .badPrice
    | some q =>
      .ok ⟨0,
           (splitFields line ',').get ⟨0, by omega⟩,
           (splitFields line ',').get ⟨1, by omega⟩,
           (splitFields line ',').get ⟨2, by omega⟩,
           (splitFields line ',').get ⟨3, by omega⟩,
           (splitFields line ',').get ⟨4, by omega⟩,
           (splitFields line ',').get ⟨5, by omega⟩,
           (splitFields line ',').get ⟨6, by omega⟩,
           (splitFields line ',').get ⟨7, by omega⟩,
           (splitFields line ',').get ⟨8, by omega⟩, q⟩
  else .error .wrongFieldCount

/-- Modelled from the spec: the row loop of the bulk import pipeline
(section 4.3). Each row is parsed and persisted independently; a failing
row is recorded with its index and the loop continues, never undoing
earlier rows. Returns the final store, the count of created records and
the failure list. -/
def importRows (st : Store) (idx : Nat) :
    List String → Store × Nat × List (Nat × RowError)
  | [] => (st, 0, [])
  | line :: rest =>
    match parseRow line with
    | .error e =>
      let r := importRows st (idx + 1) rest
      (r.1, r.2.1, (idx, e) :: r.2.2)
    | .ok d =>
      match createDevice d st with
      | .error e =>
        let r := importRows st (idx + 1) rest
        (r.1, r.2.1, (idx, .createFailed e) :: r.2.2)
      | .ok (_, st1) =>
        let r := importRows st1 (idx + 1) rest
        (r.1, r.2.1 + 1, r.2.2)

/-- Aggregate outcome of one bulk import invocation (section 4.3): total
rows seen, rows created, row failures with indices, and the final store. -/
structure ImportOutcome where
  store     : Store
  totalRows : Nat
  created   : Nat
  failures  : List (Nat × RowError)
deriving Repr, DecidableEq

/-- Modelled from the spec: the bulk import pipeline over the sequence of
rows of the upload (section 4.3). -/
def bulkImport (rows : List String) (st : Store) : ImportOutcome :=
  let r := importRows st 0 rows
  ⟨r.1, rows.length, r.2.1, r.2.2⟩

/-- GET /device/:id handler, from src/unnamed/part_000 lines 63-71: the id
is hardcoded to 1 regardless of the path parameter; any repository error
is answered with status 404, success with status 200 and the record. -/
def getDeviceHandler (pathId : Nat) (st : Store) : Nat × Option Device :=
  let id := 1
  match getDeviceByID id st with
  | .error _ => (404, none)
  | .ok d => (200, some d)

/-- GET /device handler, from src/unnamed/part_000 lines 74-81, with the
default page limit 10 and offset 0 of the specification (section 6): a
repository error is answered with status 500, success with status 200 and
the possibly-empty array. -/
def listDevicesHandler (st : Store) : Nat × Option (List Device) :=
  match listDevices 10 0 st with
  | .error _ => (500, none)
  | .ok ds => (200, some ds)

/-- PUT /device/:id handler, from src/unnamed/part_000 lines 84-96: the id
is hardcoded to 1 regardless of the path parameter; a body that fails JSON
binding (modelled as none) is answered with status 400, any repository
error with status 500, success with status 200. -/
def putDeviceHandler (pathId : Nat) (body : Option (List (String × FieldValue)))
    (st : Store) : Nat × Store :=
  let id := 1
  match body with
  | none => (400, st)
  | some updates =>
    match updateDevice id updates st with
    | .error _ => (500, st)
    | .ok st1 => (200, st1)

/-- DELETE /device/:id handler, from src/unnamed/part_000 lines 99-106:
the id is hardcoded to 1 regardless of the path parameter; any repository
error is answered with status 500, success with status 200. -/
def deleteDeviceHandler (pathId : Nat) (st : Store) : Nat × Store :=
  let id := 1
  match deleteDevice id st with
  | .error _ => (500, st)
  | .ok st1 => (200, st1)

/-- Storage invariant of the data model (section 3): every stored record
has a non-negative price. -/
def StoreOK (st : Store) : Prop := ∀ d ∈ st.devices, 0 ≤ d.price

/-- Well-formedness of the auto-increment counter: every stored ID is
below the next ID to be assigned (IDs are unique and stable, section 3). -/
def Store.WF (st : Store) : Prop := ∀ d ∈ st.devices, d.id < st.nextId

/-- The Device1 payload used throughout the test files, without an ID. -/
def dev0 : Device :=
  ⟨0, "Device1", "Mobile", "Brand1", "", "", "", "", "", "Active", 200⟩

/-- The Device1 record as stored under ID 1. -/
def dev1 : Device := { dev0 with id := 1 }

/-- A store holding exactly the Device1 record under ID 1. -/
def store1 : Store := ⟨2, [dev1]⟩

/-- The update map of TestUpdateDevice: a new device_name and price 300. -/
def upd1 : List (String × FieldValue) :=
  [("device_name", .str "Updated Device"), ("price", .num 300)]

/-- The first CSV row of TestUploadCSV. -/
def csvRow1 : String :=
  "Device1,Mobile,Brand1,Model1,Android,11,2023-01-01,2025-01-01,Active,500"

/-- The second CSV row of TestUploadCSV. -/
def csvRow2 : String :=
  "Device2,Laptop,Brand2,Model2,Windows,10,2022-01-01,2024-01-01,Inactive,1000"

/-- A malformed CSV row with only two fields. -/
def csvBad : String := "bad,row"

/-- The Device encoded by the first CSV row. -/
def csvDev1 : Device :=
  ⟨0, "Device1", "Mobile", "Brand1", "Model1", "Android", "11",
   "2023-01-01", "2025-01-01", "Active", 500⟩

/-- The Device encoded by the second CSV row. -/
def csvDev2 : Device :=
  ⟨0, "Device2", "Laptop", "Brand2", "Model2", "Windows", "10",
   "2022-01-01", "2024-01-01", "Inactive", 1000⟩

lemma getDeviceByID_absent (st : Store) (id : Nat)
    (h : ∀ d ∈ st.devices, d.id ≠ id) :
    getDeviceByID id st = .error .notFoundError := by
  unfold getDeviceByID
  have hn : st.devices.find? (fun d => d.id == id) = none := by
    rw [List.find?_eq_none]
    intro d hd
    simpa using h d hd
  rw [hn]

lemma getDeviceByID_ok {st : Store} {id : Nat} {d : Device}
    (h : getDeviceByID id st = .ok d) : d ∈ st.devices ∧ d.id = id := by
  unfold getDeviceByID at h
  split at h
  next e hf =>
    have hd : e = d := by simpa using h
    subst hd
    exact ⟨List.mem_of_find?_eq_some hf, by simpa using List.find?_some hf⟩
  next hf => exact absurd h (by simp)

lemma deleteDevice_ok {st st' : Store} {id : Nat}
    (h : deleteDevice id st = .ok st') :
    st' = { st with devices := st.devices.filter (fun d => d.id != id) } := by
  unfold deleteDevice at h
  split_ifs at h with hc
  simpa using h.symm

/-- C7: after a successful Delete on an id, GetByID on that id fails with
NotFoundError; the record is removed, not tombstoned. -/
theorem C7_delete_then_get_fails (st st' : Store) (id : Nat)
    (h : deleteDevice id st = .ok st') :
    getDeviceByID id st' = .error .notFoundError := by
  rw [deleteDevice_ok h]
  apply getDeviceByID_absent
  intro d hd
  have hp := (List.mem_filter.mp hd).2
  simpa using hp

/-- Witness for C7 at a concrete store holding the record with id 1. -/
theorem C7_witness :
    deleteDevice 1 ⟨2, [⟨1, "Device1", "Mobile", "Brand1", "", "", "", "", "", "Active", 200⟩]⟩
      = .ok ⟨2, []⟩ ∧
    getDeviceByID 1 (⟨2, []⟩ : Store) = .error .notFoundError :=
  ⟨rfl, C7_delete_then_get_fails
    ⟨2, [⟨1, "Device1", "Mobile", "Brand1", "", "", "", "", "", "Active", 200⟩]⟩
    ⟨2, []⟩ 1 rfl⟩

/-- C10: the GET, PUT and DELETE device handlers invoke the repository with
the constant id 1, ignoring the path parameter, so the response is
independent of which id the caller supplies in the URL path. -/
theorem C10_handlers_ignore_path_id (pid1 pid2 : Nat) (st : Store)
    (body : Option (List (String × FieldValue))) :
    getDeviceHandler pid1 st = getDeviceHandler pid2 st ∧
    putDeviceHandler pid1 body st = putDeviceHandler pid2 body st ∧
    deleteDeviceHandler pid1 st = deleteDeviceHandler pid2 st :=
  ⟨rfl, rfl, rfl⟩

/-- C8: List with limit 10 and offset 0 on an empty store returns the
empty sequence and no error, and the HTTP layer answers status 200 with a
possibly-empty array. -/
theorem C8_list_empty_store (st : Store) (h : st.devices = []) :
    listDevices 10 0 st = .ok [] ∧ listDevicesHandler st = (200, some []) := by
  have h1 : listDevices 10 0 st = .ok [] := by simp [listDevices, h]
  exact ⟨h1, by simp [listDevicesHandler, h1]⟩

/-- Witness for C8 at the empty store. -/
theorem C8_witness :
    listDevices 10 0 (⟨1, []⟩ : Store) = .ok [] ∧
    listDevicesHandler ⟨1, []⟩ = (200, some []) :=
  C8_list_empty_store ⟨1, []⟩ rfl

/-- C6: GetByID on an id no record has fails with NotFoundError, and the
GET handler answers a repository failure with status 404. -/
theorem C6_get_missing_not_found (st : Store) (id pid : Nat)
    (h : ∀ d ∈ st.devices, d.id ≠ id) :
    getDeviceByID id st = .error .notFoundError ∧
    (∀ e, getDeviceByID 1 st = .error e → getDeviceHandler pid st = (404, none)) := by
  refine ⟨getDeviceByID_absent st id h, ?_⟩
  intro e he
  simp [getDeviceHandler, he]

/-- Witness for C6 at the empty store and id 1. -/
theorem C6_witness :
    getDeviceByID 1 (⟨1, []⟩ : Store) = .error .notFoundError ∧
    getDeviceHandler 7 ⟨1, []⟩ = (404, none) := by
  have h := C6_get_missing_not_found ⟨1, []⟩ 1 7 (by simp)
  exact ⟨h.1, h.2 _ h.1⟩

/-- C3: Create on a valid payload succeeds, assigns an integer ID, and a
subsequent GetByID on the returned ID yields a record equal to the payload
on all fields except that the ID is now populated. -/
theorem C3_create_then_get (st : Store) (d : Device)
    (hwf : Store.WF st) (hprice : 0 ≤ d.price) :
    ∃ newId st', createDevice d st = .ok (newId, st') ∧
      getDeviceByID newId st' = .ok { d with id := newId } := by
  refine ⟨st.nextId,
    { nextId := st.nextId + 1, devices := st.devices ++ [{ d with id := st.nextId }] },
    ?_, ?_⟩
  · simp [createDevice, hprice]
  · have hfind : (st.devices ++ [{ d with id := st.nextId }]).find?
        (fun e => e.id == st.nextId) = some { d with id := st.nextId } := by
      rw [List.find?_append]
      have h1 : st.devices.find? (fun e => e.id == st.nextId) = none := by
        rw [List.find?_eq_none]
        intro e he
        have hlt := hwf e he
        simp only [beq_iff_eq]
        omega
      rw [h1]
      simp
    simp [getDeviceByID, hfind]

lemma getDeviceByID_ok_find {st : Store} {id : Nat} {d : Device}
    (h : getDeviceByID id st = .ok d) :
    st.devices.find? (fun e => e.id == id) = some d := by
  unfold getDeviceByID at h
  split at h
  next e hf =>
    have hd : e = d := by simpa using h
    exact hd ▸ hf
  next hf => exact absurd h (by simp)

lemma keyToField_some {k : String} {fn : FieldName}
    (h : keyToField k = some fn) : k = fieldKey fn := by
  unfold keyToField at h
  split_ifs at h <;>
    first
      | (obtain rfl := Option.some.inj h; simp_all [fieldKey])
      | (exact absurd h (by simp))

lemma setField_err {d : Device} {fn : FieldName} {v : FieldValue} {e : RepoError}
    (h : setField d fn v = .error e) : e = .validationError := by
  cases fn <;> cases v <;> simp only [setField] at h <;> try split_ifs at h
  all_goals simp_all

lemma applyField_valid (d : Device) (kv : String × FieldValue)
    (h : validAssignment kv) :
    ∃ d', applyField d kv = .ok d' ∧ d'.id = d.id ∧
      (∀ fn, fieldKey fn ≠ kv.1 → readField d' fn = readField d fn) ∧
      (∀ fn, fieldKey fn = kv.1 → readField d' fn = kv.2) := by
  rcases kv with ⟨k, v⟩
  cases v with
  | str s =>
    have hk : k ∈ knownStringFields := h
    simp only [knownStringFields, List.mem_cons, List.not_mem_nil, or_false] at hk
    rcases hk with rfl | rfl | rfl | rfl | rfl | rfl | rfl | rfl | rfl
    · exact ⟨{ d with device_name := s },
        by simp only [applyField, keyToField, setField, String.reduceEq, reduceIte], rfl,
        fun fn hf => by cases fn <;> first | rfl | (exact absurd rfl hf),
        fun fn hf => by cases fn <;> first | rfl | (exact absurd hf (by simp [fieldKey]))⟩
    · exact ⟨{ d with device_type := s },
        by simp only [applyField, keyToField, setField, String.reduceEq, reduceIte], rfl,
        fun fn hf => by cases fn <;> first | rfl | (exact absurd rfl hf),
        fun fn hf => by cases fn <;> first | rfl | (exact absurd hf (by simp [fieldKey]))⟩
    · exact ⟨{ d with brand := s },
        by simp only [applyField, keyToField, setField, String.reduceEq, reduceIte], rfl,
        fun fn hf => by cases fn <;> first | rfl | (exact absurd rfl hf),
        fun fn hf => by cases fn <;> first | rfl | (exact absurd hf (by simp [fieldKey]))⟩
    · exact ⟨{ d with model := s },
        by simp only [applyField, keyToField, setField, String.reduceEq, reduceIte], rfl,
        fun fn hf => by cases fn <;> first | rfl | (exact absurd rfl hf),
        fun fn hf => by cases fn <;> first | rfl | (exact absurd hf (by simp [fieldKey]))⟩
    · exact ⟨{ d with os := s },
        by simp only [applyField, keyToField, setField, String.reduceEq, reduceIte], rfl,
        fun fn hf => by cases fn <;> first | rfl | (exact absurd rfl hf),
        fun fn hf => by cases fn <;> first | rfl | (exact absurd hf (by simp [fieldKey]))⟩
    · exact ⟨{ d with os_version := s },
        by simp only [applyField, keyToField, setField, String.reduceEq, reduceIte], rfl,
        fun fn hf => by cases fn <;> first | rfl | (exact absurd rfl hf),
        fun fn hf => by cases fn <;> first | rfl | (exact absurd hf (by simp [fieldKey]))⟩
    · exact ⟨{ d with purchase_date := s },
        by simp only [applyField, keyToField, setField, String.reduceEq, reduceIte], rfl,
        fun fn hf => by cases fn <;> first | rfl | (exact absurd rfl hf),
        fun fn hf => by cases fn <;> first | rfl | (exact absurd hf (by simp [fieldKey]))⟩
    · exact ⟨{ d with warranty_end := s },
        by simp only [applyField, keyToField, setField, String.reduceEq, reduceIte], rfl,
        fun fn hf => by cases fn <;> first | rfl | (exact absurd rfl hf),
        fun fn hf => by cases fn <;> first | rfl | (exact absurd hf (by simp [fieldKey]))⟩
    · exact ⟨{ d with status := s },
        by simp only [applyField, keyToField, setField, String.reduceEq, reduceIte], rfl,
        fun fn hf => by cases fn <;> first | rfl | (exact absurd rfl hf),
        fun fn hf => by cases fn <;> first | rfl | (exact absurd hf (by simp [fieldKey]))⟩
  | num q =>
    obtain ⟨rfl, hq⟩ := h
    exact ⟨{ d with price := q },
      by simp only [applyField, keyToField, setField, String.reduceEq, reduceIte, if_pos hq],
      rfl,
      fun fn hf => by cases fn <;> first | rfl | (exact absurd rfl hf),
      fun fn hf => by cases fn <;> first | rfl | (exact absurd hf (by simp [fieldKey]))⟩

lemma applyUpdates_valid (updates : List (String × FieldValue)) :
    ∀ d : Device, (∀ kv ∈ updates, validAssignment kv) →
      ∃ d', applyUpdates d updates = .ok d' ∧ d'.id = d.id ∧
        (∀ fn, fieldKey fn ∉ updates.map Prod.fst → readField d' fn = readField d fn) ∧
        ((updates.map Prod.fst).Nodup →
          ∀ kv ∈ updates, ∀ fn, fieldKey fn = kv.1 → readField d' fn = kv.2) := by
  induction updates with
  | nil =>
    intro d _
    exact ⟨d, rfl, rfl, fun _ _ => rfl, fun _ kv hkv => absurd hkv (by simp)⟩
  | cons kv rest ih =>
    intro d h
    obtain ⟨d1, h1, hid1, hframe1, hset1⟩ := applyField_valid d kv (h kv (by simp))
    obtain ⟨d', h2, hid2, hframe2, hlast2⟩ :=
      ih d1 (fun kv2 hkv2 => h kv2 (by simp [hkv2]))
    refine ⟨d', ?_, by rw [hid2, hid1], ?_, ?_⟩
    · simp [applyUpdates, h1, h2]
    · intro fn hk
      simp only [List.map_cons, List.mem_cons, not_or] at hk
      rw [hframe2 fn hk.2, hframe1 fn hk.1]
    · intro hnd kv2 hkv2 fn hfn
      simp only [List.map_cons, List.nodup_cons] at hnd
      rcases List.mem_cons.mp hkv2 with rfl | hmem
      · rw [hframe2 fn (by rw [hfn]; exact hnd.1), hset1 fn hfn]
      · exact hlast2 hnd.2 kv2 hmem fn hfn

lemma applyField_err {d : Device} {kv : String × FieldValue} {e : RepoError}
    (h : applyField d kv = .error e) : e = .validationError := by
  unfold applyField at h
  split at h
  next hk =>
    have he : RepoError.validationError = e := by simpa using h
    exact he.symm
  next fn hk => exact setField_err h

lemma applyField_ok_valid {d d' : Device} {kv : String × FieldValue}
    (h : applyField d kv = .ok d') : validAssignment kv := by
  rcases kv with ⟨k, v⟩
  unfold applyField at h
  split at h
  next hk => exact absurd h (by simp)
  next fn hk =>
    obtain rfl := keyToField_some hk
    cases v with
    | str s =>
      cases fn <;> simp_all [setField, validAssignment, knownStringFields, fieldKey]
    | num q =>
      cases fn <;>
        first
          | (simp only [setField] at h
             split_ifs at h <;> simp_all [validAssignment, fieldKey])
          | (simp_all [setField])

lemma applyField_invalid (d : Device) (kv : String × FieldValue)
    (h : ¬ validAssignment kv) :
    applyField d kv = .error .validationError := by
  cases hf : applyField d kv with
  | ok d' => exact absurd (applyField_ok_valid hf) h
  | error e => rw [applyField_err hf]

lemma applyUpdates_err {updates : List (String × FieldValue)} :
    ∀ {d : Device} {e : RepoError},
      applyUpdates d updates = .error e → e = .validationError := by
  induction updates with
  | nil => intro d e h; simp [applyUpdates] at h
  | cons kv rest ih =>
    intro d e h
    unfold applyUpdates at h
    cases hf : applyField d kv with
    | error e2 =>
      simp only [hf] at h
      have he : e2 = e := by simpa using h
      exact he ▸ applyField_err hf
    | ok d1 =>
      simp only [hf] at h
      exact ih h

lemma applyUpdates_invalid (updates : List (String × FieldValue)) :
    ∀ d : Device, (∃ kv ∈ updates, ¬ validAssignment kv) →
      applyUpdates d updates = .error .validationError := by
  induction updates with
  | nil =>
    intro d h
    obtain ⟨kv, hkv, _⟩ := h
    exact absurd hkv (by simp)
  | cons kv0 rest ih =>
    intro d h
    obtain ⟨kv, hkv, hbad⟩ := h
    rcases List.mem_cons.mp hkv with rfl | hmem
    · simp [applyUpdates, applyField_invalid d kv hbad]
    · cases hf : applyField d kv0 with
      | error e2 =>
        have he := applyField_err hf
        subst he
        simp [applyUpdates, hf]
      | ok d1 =>
        have hrest := ih d1 ⟨kv, hmem, hbad⟩
        simp [applyUpdates, hf, hrest]

lemma unknown_key_not_valid {kv : String × FieldValue}
    (h : kv.1 ∉ knownFields) : ¬ validAssignment kv := by
  rcases kv with ⟨k, v⟩
  cases v with
  | str s =>
    intro hv
    have hm : k ∈ knownStringFields := hv
    exact h (by simp only [knownFields, List.mem_append]; exact Or.inl hm)
  | num q =>
    intro hv
    obtain ⟨rfl, _⟩ := hv
    exact h (by simp [knownFields, knownStringFields])

lemma find?_map_replace (id : Nat) (d1 : Device) (hid : d1.id = id) :
    ∀ (l : List Device) (d : Device),
      l.find? (fun e => e.id == id) = some d →
      (l.map (fun e => if e.id == id then d1 else e)).find?
        (fun e => e.id == id) = some d1 := by
  intro l
  induction l with
  | nil => intro d hf; simp at hf
  | cons x xs ih =>
    intro d hf
    by_cases hx : x.id = id
    · have hxb : (x.id == id) = true := by simpa using hx
      simp only [List.map_cons, hxb, if_true]
      exact List.find?_cons_of_pos _ (by simpa using hid)
    · have hxb : (x.id == id) = false := by simpa using hx
      simp only [List.map_cons, hxb, Bool.false_eq_true, if_false]
      rw [List.find?_cons_of_neg _ (by simp [hx])]
      rw [List.find?_cons_of_neg _ (by simp [hx])] at hf
      exact ih d hf

/-- C1: for an existing device, an update whose field-map holds only
recognized keys with correctly-typed values succeeds and mutates exactly
the named fields, leaving every other field and the ID unchanged; an
update whose field-map holds any unknown key mutates nothing and fails
with ValidationError. -/
theorem C1_partial_update_frame (st : Store) (id : Nat)
    (updates : List (String × FieldValue)) (d : Device)
    (hget : getDeviceByID id st = .ok d) :
    ((∀ kv ∈ updates, validAssignment kv) →
      ∃ st' d', updateDevice id updates st = .ok st' ∧
        getDeviceByID id st' = .ok d' ∧ d'.id = d.id ∧
        (∀ fn, fieldKey fn ∉ updates.map Prod.fst →
          readField d' fn = readField d fn) ∧
        ((updates.map Prod.fst).Nodup →
          ∀ kv ∈ updates, ∀ fn, fieldKey fn = kv.1 → readField d' fn = kv.2)) ∧
    ((∃ kv ∈ updates, kv.1 ∉ knownFields) →
      updateDevice id updates st = .error .validationError) := by
  have hfind := getDeviceByID_ok_find hget
  have hdid := (getDeviceByID_ok hget).2
  constructor
  · intro hval
    obtain ⟨d', hap, hid', hframe, hlast⟩ := applyUpdates_valid updates d hval
    refine ⟨{ st with devices := st.devices.map (fun e => if e.id == id then d' else e) },
      d', ?_, ?_, hid', hframe, hlast⟩
    · simp [updateDevice, hfind, hap]
    · have hfm := find?_map_replace id d' (by rw [hid', hdid]) st.devices d hfind
      simp only [getDeviceByID, hfm]
  · rintro ⟨kv, hkv, hunk⟩
    have hinv := applyUpdates_invalid updates d ⟨kv, hkv, unknown_key_not_valid hunk⟩
    simp [updateDevice, hfind, hinv]

/-- Witness for C1: the TestUpdateDevice scenario, plus a rejected update
with the unknown key bogus. -/
theorem C1_witness :
    getDeviceByID 1 store1 = .ok dev1 ∧
    (∀ kv ∈ upd1, validAssignment kv) ∧
    (∃ st' d', updateDevice 1 upd1 store1 = .ok st' ∧
      getDeviceByID 1 st' = .ok d' ∧ d'.id = dev1.id ∧
      (∀ fn, fieldKey fn ∉ upd1.map Prod.fst →
        readField d' fn = readField dev1 fn) ∧
      ((upd1.map Prod.fst).Nodup →
        ∀ kv ∈ upd1, ∀ fn, fieldKey fn = kv.1 → readField d' fn = kv.2)) ∧
    updateDevice 1 [("bogus", FieldValue.num 1)] store1 = .error .validationError := by
  have hget : getDeviceByID 1 store1 = .ok dev1 := rfl
  have hval : ∀ kv ∈ upd1, validAssignment kv := by
    intro kv hkv
    simp only [upd1, List.mem_cons, List.not_mem_nil, or_false] at hkv
    rcases hkv with rfl | rfl
    · simp [validAssignment, knownStringFields]
    · exact ⟨rfl, by norm_num⟩
  refine ⟨hget, hval, (C1_partial_update_frame store1 1 upd1 dev1 hget).1 hval, ?_⟩
  exact (C1_partial_update_frame store1 1 [("bogus", FieldValue.num 1)] dev1 hget).2
    ⟨("bogus", FieldValue.num 1), by simp, by simp [knownFields, knownStringFields]⟩

/-- Witness for C3: creating the Device1 payload in an empty store. -/
theorem C3_witness :
    Store.WF (⟨1, []⟩ : Store) ∧ 0 ≤ dev0.price ∧
    (∃ newId st', createDevice dev0 ⟨1, []⟩ = .ok (newId, st') ∧
      getDeviceByID newId st' = .ok { dev0 with id := newId }) := by
  refine ⟨?_, ?_, C3_create_then_get ⟨1, []⟩ dev0 ?_ ?_⟩
  · simp [Store.WF]
  · norm_num [dev0]
  · simp [Store.WF]
  · norm_num [dev0]

lemma parsePrice_nonneg {s : String} {q : ℚ} (h : parsePrice s = some q) :
    0 ≤ q := by
  unfold parsePrice at h
  split at h
  next w heq =>
    split_ifs at h
    cases hpn : parseNatDigits w.toList with
    | none => rw [hpn] at h; exact absurd h (by simp)
    | some n =>
      rw [hpn] at h
      have hq : (n : ℚ) = q := by simpa using h
      rw [← hq]
      exact Nat.cast_nonneg n
  next w f heq =>
    split_ifs at h
    split at h
    next n m hn hm =>
      have hq : (n : ℚ) + (m : ℚ) / ((10 : ℚ) ^ f.length) = q := by simpa using h
      rw [← hq]
      have h10 : (0 : ℚ) < (10 : ℚ) ^ f.length := by positivity
      exact add_nonneg (Nat.cast_nonneg n)
        (div_nonneg (Nat.cast_nonneg m) (le_of_lt h10))
    next => exact absurd h (by simp)
  next heq => exact absurd h (by simp)

lemma parseRow_ok {line : String} {d : Device} (h : parseRow line = .ok d) :
    0 ≤ d.price := by
  unfold parseRow at h
  split_ifs at h with hlen
  split at h
  next => exact absurd h (by simp)
  next q hq =>
    have hd : _ = d := Except.ok.inj h
    subst hd
    exact parsePrice_nonneg hq

lemma parseRow_wrongFieldCount {line : String}
    (h : (splitFields line ',').length ≠ 10) :
    parseRow line = .error .wrongFieldCount := by
  unfold parseRow
  rw [dif_neg h]

lemma createDevice_ok (d : Device) (st : Store) (h : 0 ≤ d.price) :
    createDevice d st = .ok (st.nextId,
      { nextId := st.nextId + 1,
        devices := st.devices ++ [{ d with id := st.nextId }] }) := by
  simp [createDevice, h]

/-- C5: bulk import of two well-formed CSV rows (ten comma-separated
fields each, in the fixed field order) creates exactly two records, in
the order the rows appear, with consecutive assigned IDs and the price
field parsed as a decimal; in particular the text 500 parses to the
decimal 500. -/
theorem C5_bulk_import_two_rows (st : Store) (r1 r2 : String) (d1 d2 : Device)
    (h1 : parseRow r1 = .ok d1) (h2 : parseRow r2 = .ok d2) :
    (bulkImport [r1, r2] st).created = 2 ∧
    (bulkImport [r1, r2] st).totalRows = 2 ∧
    (bulkImport [r1, r2] st).failures = [] ∧
    (bulkImport [r1, r2] st).store.devices =
      st.devices ++ [{ d1 with id := st.nextId }, { d2 with id := st.nextId + 1 }] ∧
    parsePrice "500" = some (500 : ℚ) := by
  have hp1 := parseRow_ok h1
  have hp2 := parseRow_ok h2
  have hc1 := createDevice_ok d1 st hp1
  have hc2 := @createDevice_ok d2
    ⟨st.nextId + 1, st.devices ++ [{ d1 with id := st.nextId }]⟩ hp2
  refine ⟨?_, rfl, ?_, ?_, by decide⟩ <;>
    simp [bulkImport, importRows, h1, h2, hc1, hc2, List.append_assoc]

/-- Witness for C5: the TestUploadCSV upload of two well-formed rows into
an empty store. -/
theorem C5_witness :
    parseRow csvRow1 = .ok csvDev1 ∧ parseRow csvRow2 = .ok csvDev2 ∧
    (bulkImport [csvRow1, csvRow2] ⟨1, []⟩).created = 2 ∧
    (bulkImport [csvRow1, csvRow2] ⟨1, []⟩).totalRows = 2 ∧
    (bulkImport [csvRow1, csvRow2] ⟨1, []⟩).failures = [] ∧
    (bulkImport [csvRow1, csvRow2] ⟨1, []⟩).store.devices =
      [{ csvDev1 with id := 1 }, { csvDev2 with id := 2 }] ∧
    parsePrice "500" = some (500 : ℚ) := by
  have hr1 : parseRow csvRow1 = .ok csvDev1 := rfl
  have hr2 : parseRow csvRow2 = .ok csvDev2 := rfl
  have h := C5_bulk_import_two_rows ⟨1, []⟩ csvRow1 csvRow2 csvDev1 csvDev2 hr1 hr2
  refine ⟨hr1, hr2, h.1, h.2.1, h.2.2.1, ?_, h.2.2.2.2⟩
  rw [h.2.2.2.1]
  simp

/-- C2: bulk import of one well-formed row followed by one malformed row
(not exactly ten fields) creates exactly one record, reports exactly one
row failure carrying the failing row index, and the record created from
the well-formed row stays persisted; no rollback. -/
theorem C2_bulk_import_partial_failure (st : Store) (r1 r2 : String) (d1 : Device)
    (h1 : parseRow r1 = .ok d1)
    (h2 : (splitFields r2 ',').length ≠ 10) :
    (bulkImport [r1, r2] st).created = 1 ∧
    (bulkImport [r1, r2] st).totalRows = 2 ∧
    (bulkImport [r1, r2] st).failures = [(1, .wrongFieldCount)] ∧
    (bulkImport [r1, r2] st).store.devices =
      st.devices ++ [{ d1 with id := st.nextId }] := by
  have hp1 := parseRow_ok h1
  have hr2 := parseRow_wrongFieldCount h2
  have hc1 := createDevice_ok d1 st hp1
  refine ⟨?_, rfl, ?_, ?_⟩ <;>
    simp [bulkImport, importRows, h1, hc1, hr2]

/-- Witness for C2: the well-formed first TestUploadCSV row followed by a
two-field row, imported into an empty store. -/
theorem C2_witness :
    parseRow csvRow1 = .ok csvDev1 ∧
    (splitFields csvBad ',').length ≠ 10 ∧
    (bulkImport [csvRow1, csvBad] ⟨1, []⟩).created = 1 ∧
    (bulkImport [csvRow1, csvBad] ⟨1, []⟩).failures = [(1, .wrongFieldCount)] ∧
    (bulkImport [csvRow1, csvBad] ⟨1, []⟩).store.devices = [{ csvDev1 with id := 1 }] := by
  have hr1 : parseRow csvRow1 = .ok csvDev1 := rfl
  have hlen : (splitFields csvBad ',').length ≠ 10 := by decide
  have h := C2_bulk_import_partial_failure ⟨1, []⟩ csvRow1 csvBad csvDev1 hr1 hlen
  refine ⟨hr1, hlen, h.1, h.2.2.1, ?_⟩
  rw [h.2.2.2]
  simp

lemma updateDevice_bogus :
    updateDevice 1 [("bogus", FieldValue.num 1)] store1 = .error .validationError := by
  have hbad : ¬ validAssignment ("bogus", FieldValue.num 1) := by
    intro hv
    obtain ⟨hk, _⟩ := hv
    simp at hk
  have hfind : store1.devices.find? (fun e => e.id == 1) = some dev1 := rfl
  have hinv := applyUpdates_invalid [("bogus", FieldValue.num 1)] dev1
    ⟨("bogus", FieldValue.num 1), by simp, hbad⟩
  simp [updateDevice, hfind, hinv]

/-- C4 as stated is false of the source HTTP layer: the PUT handler
(src/unnamed/part_000 lines 91-94) answers every repository error,
including a ValidationError, with status 500, not 400. Concretely, an
update map with the unknown key bogus makes the repository fail with
ValidationError and the handler answer 500. -/
theorem C4_counterexample :
    updateDevice 1 [("bogus", FieldValue.num 1)] store1 = .error .validationError ∧
    (putDeviceHandler 1 (some [("bogus", FieldValue.num 1)]) store1).1 = 500 ∧
    (500 : Nat) ≠ 400 :=
  ⟨updateDevice_bogus, by simp [putDeviceHandler, updateDevice_bogus], by norm_num⟩

/-- C4 amended: Update fails with NotFoundError when the id is absent and
with ValidationError when the field-map holds an unrecognized key or a
wrongly-typed value; the HTTP layer of the source maps a JSON binding
failure to 400, every repository error (ValidationError and NotFoundError
alike) to 500, and success to 200. -/
theorem C4_update_error_mapping (st : Store) (pid : Nat)
    (updates : List (String × FieldValue)) (id : Nat) :
    ((∀ d ∈ st.devices, d.id ≠ id) →
      updateDevice id updates st = .error .notFoundError) ∧
    ((∃ d, getDeviceByID id st = .ok d) →
      (∃ kv ∈ updates, ¬ validAssignment kv) →
      updateDevice id updates st = .error .validationError) ∧
    putDeviceHandler pid none st = (400, st) ∧
    (∀ e, updateDevice 1 updates st = .error e →
      (putDeviceHandler pid (some updates) st).1 = 500) ∧
    (∀ st', updateDevice 1 updates st = .ok st' →
      putDeviceHandler pid (some updates) st = (200, st')) := by
  refine ⟨?_, ?_, rfl, ?_, ?_⟩
  · intro habs
    have hnone : st.devices.find? (fun e => e.id == id) = none := by
      rw [List.find?_eq_none]
      intro e he
      simpa using habs e he
    simp [updateDevice, hnone]
  · rintro ⟨d, hd⟩ ⟨kv, hkv, hbad⟩
    have hfind := getDeviceByID_ok_find hd
    have hinv := applyUpdates_invalid updates d ⟨kv, hkv, hbad⟩
    simp [updateDevice, hfind, hinv]
  · intro e he
    simp [putDeviceHandler, he]
  · intro st' hok
    simp [putDeviceHandler, hok]

/-- Witness for C4 amended: an absent id, a JSON binding failure, and a
repository ValidationError answered with 500. -/
theorem C4_witness :
    (∀ d ∈ store1.devices, d.id ≠ 5) ∧
    updateDevice 5 [("bogus", FieldValue.num 1)] store1 = .error .notFoundError ∧
    putDeviceHandler 9 none store1 = (400, store1) ∧
    (putDeviceHandler 9 (some [("bogus", FieldValue.num 1)]) store1).1 = 500 := by
  have h := C4_update_error_mapping store1 9 [("bogus", FieldValue.num 1)] 5
  have habs : ∀ d ∈ store1.devices, d.id ≠ 5 := by
    simp [store1, dev1, dev0]
  exact ⟨habs, h.1 habs, h.2.2.1, h.2.2.2.1 .validationError updateDevice_bogus⟩

lemma setField_price_nonneg {d d' : Device} {fn : FieldName} {v : FieldValue}
    (hd : 0 ≤ d.price) (h : setField d fn v = .ok d') : 0 ≤ d'.price := by
  cases fn <;> cases v <;> simp only [setField] at h <;> try split_ifs at h
  all_goals try simp only [Except.ok.injEq] at h
  all_goals try subst h
  all_goals simp_all

lemma applyField_price_nonneg {d d' : Device} {kv : String × FieldValue}
    (hd : 0 ≤ d.price) (h : applyField d kv = .ok d') : 0 ≤ d'.price := by
  unfold applyField at h
  split at h
  next => exact absurd h (by simp)
  next fn hk => exact setField_price_nonneg hd h

lemma applyUpdates_price_nonneg {updates : List (String × FieldValue)} :
    ∀ {d d' : Device}, 0 ≤ d.price → applyUpdates d updates = .ok d' →
      0 ≤ d'.price := by
  induction updates with
  | nil =>
    intro d d' hd h
    have hdd : d = d' := by simpa [applyUpdates] using h
    exact hdd ▸ hd
  | cons kv rest ih =>
    intro d d' hd h
    unfold applyUpdates at h
    cases hf : applyField d kv with
    | error e =>
      simp only [hf] at h
      exact absurd h (by simp)
    | ok d1 =>
      simp only [hf] at h
      exact ih (applyField_price_nonneg hd hf) h

lemma createDevice_storeOK {st : Store} (h : StoreOK st) :
    ∀ {d : Device} {n : Nat} {st' : Store},
      createDevice d st = .ok (n, st') → StoreOK st' := by
  intro d n st' hc
  unfold createDevice at hc
  split_ifs at hc with hp
  have hx := hc
  simp only [Except.ok.injEq, Prod.mk.injEq] at hx
  obtain ⟨hn, hst⟩ := hx
  subst hst
  intro x hx
  rcases List.mem_append.mp hx with hmem | hmem
  · exact h x hmem
  · have hxd : x = { d with id := st.nextId } := by simpa using hmem
    subst hxd
    exact hp

lemma updateDevice_storeOK {st : Store} (h : StoreOK st) :
    ∀ {id : Nat} {updates : List (String × FieldValue)} {st' : Store},
      updateDevice id updates st = .ok st' → StoreOK st' := by
  intro id updates st' hu
  unfold updateDevice at hu
  split at hu
  next hfind => exact absurd hu (by simp)
  next d hfind =>
    cases hap : applyUpdates d updates with
    | error e =>
      simp only [hap] at hu
      exact absurd hu (by simp)
    | ok d1 =>
      simp only [hap] at hu
      have hst :
          { st with devices := st.devices.map (fun e => if e.id == id then d1 else e) }
            = st' := by
        simpa using hu
      subst hst
      intro x hx
      simp only [List.mem_map] at hx
      obtain ⟨e, he, hex⟩ := hx
      by_cases hc : (e.id == id) = true
      · rw [if_pos hc] at hex
        subst hex
        exact applyUpdates_price_nonneg
          (h d (List.mem_of_find?_eq_some hfind)) hap
      · rw [if_neg hc] at hex
        subst hex
        exact h e he

lemma deleteDevice_storeOK {st : Store} (h : StoreOK st) :
    ∀ {id : Nat} {st' : Store}, deleteDevice id st = .ok st' → StoreOK st' := by
  intro id st' hd
  rw [deleteDevice_ok hd]
  intro x hx
  exact h x (List.mem_filter.mp hx).1

lemma importRows_storeOK {rows : List String} :
    ∀ {st : Store} {idx : Nat}, StoreOK st →
      StoreOK (importRows st idx rows).1 := by
  induction rows with
  | nil => intro st idx h; exact h
  | cons line rest ih =>
    intro st idx h
    unfold importRows
    cases hp : parseRow line with
    | error e =>
      simp only [hp]
      exact ih h
    | ok d =>
      simp only [hp]
      cases hc : createDevice d st with
      | error e =>
        simp only [hc]
        exact ih h
      | ok p =>
        obtain ⟨n, st1⟩ := p
        simp only [hc]
        exact ih (createDevice_storeOK h hc)

/-- C9: every operation preserves the storage invariant that each stored
record has a numeric non-negative price: create validates it, update
coerces price within it, delete only removes records, and bulk import
persists rows only through create. -/
theorem C9_price_invariant (st : Store) (h : StoreOK st) :
    (∀ d n st', createDevice d st = .ok (n, st') → StoreOK st') ∧
    (∀ id updates st', updateDevice id updates st = .ok st' → StoreOK st') ∧
    (∀ id st', deleteDevice id st = .ok st' → StoreOK st') ∧
    (∀ rows, StoreOK (bulkImport rows st).store) :=
  ⟨fun _ _ _ hc => createDevice_storeOK h hc,
   fun _ _ _ hu => updateDevice_storeOK h hu,
   fun _ _ hd => deleteDevice_storeOK h hd,
   fun _ => importRows_storeOK h⟩

/-- Witness for C9: the invariant holds of the Device1 store and is kept
by a bulk import of the second test row. -/
theorem C9_witness :
    StoreOK store1 ∧ StoreOK (bulkImport [csvRow2] store1).store := by
  have hok : StoreOK store1 := by
    intro d hd
    have hd1 : d = dev1 := by simpa [store1] using hd
    subst hd1
    norm_num [dev1, dev0]
  exact ⟨hok, (C9_price_invariant store1 hok).2.2.2 [csvRow2]⟩
